import Mathlib

/-!
# Verification of the amatl-action batch pipeline

A shallow embedding of `src/amatl.ts` and `src/main.ts` of the
Bornholm/amatl-action repository, together with theorems settling the
frozen claims about it.

External effects (the `glob` library, `@actions/exec` process spawns,
`@actions/tool-cache` downloads, the GitHub `fetch` call) are modelled as
explicit oracle parameters; everything the repository computes itself is
translated directly from the TypeScript source.  String manipulation is
modelled over `List Char` with structural recursion so that every
definition evaluates inside the kernel.
-/

namespace AmatlAction

/-! ### Character/string utilities (models of the JS string operations used) -/

/-- Whitespace characters recognised when splitting/trimming (ASCII subset). -/
def isWhitespaceChar (c : Char) : Bool :=
  c == ' ' || c == '\t' || c == '\n' || c == '\r'

/-- Split a character list at every character satisfying `p`.
Mirrors JavaScript `String.prototype.split`: the empty input yields one
empty group, and separators at the edges produce empty groups. -/
def splitWhenChar (p : Char → Bool) : List Char → List (List Char)
  | [] => [[]]
  | c :: rest =>
    match splitWhenChar p rest with
    | [] => [[c]]
    | g :: gs => if p c then [] :: g :: gs else (c :: g) :: gs

/-- Split a string on a single-character separator (all separator uses in the
source — `'\n'`, `','`, `'/'` — are single characters). -/
def splitOnChar (sep : Char) (s : String) : List String :=
  (splitWhenChar (fun c => c == sep) s.toList).map String.mk

/-- Model of JS `String.prototype.trim` (ASCII whitespace). -/
def strTrim (s : String) : String :=
  String.mk (((s.toList.dropWhile isWhitespaceChar).reverse.dropWhile isWhitespaceChar).reverse)

/-- ASCII lower-casing of one character, as JS `toLowerCase` acts on the
ASCII range used by the format tokens. -/
def asciiLower (c : Char) : Char :=
  if 'A' ≤ c ∧ c ≤ 'Z' then Char.ofNat (c.toNat + 32) else c

/-- Model of JS `String.prototype.toLowerCase` (ASCII). -/
def strToLower (s : String) : String :=
  String.mk (s.toList.map asciiLower)

/-- `s` starts with `p` (kernel-evaluable replacement for `String.startsWith`). -/
def startsWithStr (s p : String) : Bool :=
  List.isPrefixOf p.toList s.toList

/-- `s` ends with `suf` (kernel-evaluable replacement for `String.endsWith`). -/
def endsWithStr (s suf : String) : Bool :=
  List.isSuffixOf suf.toList s.toList

/-- Model of JS `String.prototype.replace` with a single-character string
pattern: removes/replaces only the first occurrence.  Used for
`version.replace('v', '')`. -/
def replaceFirstChar (target : Char) : List Char → List Char
  | [] => []
  | c :: rest => if c == target then rest else c :: replaceFirstChar target rest

/-- Join a list of strings with a separator (model of `Array.prototype.join`
and of the posix path assembly). -/
def strIntercalate (sep : String) : List String → String
  | [] => ""
  | [x] => x
  | x :: y :: xs => x ++ sep ++ strIntercalate sep (y :: xs)

/-! ### POSIX path model

Models of the Node `path` functions the source uses (`basename`, `extname`,
`dirname`, `join`, `relative`), for the posix separator `'/'`.  `pathJoin`
performs the one normalisation step (`join(a, ".") = a`) that the computed
paths of this repository exercise; full `..`-resolution is not modelled as
no path built here contains `..` segments. -/

/-- Last `/`-separated component of a path. -/
def lastComponent (p : String) : String :=
  (splitOnChar '/' p).getLastD p

/-- Model of Node `path.extname`: the substring from the last `.` of the last
component, unless that dot is the component's first character. -/
def pathExtname (p : String) : String :=
  match (lastComponent p).toList.reverse.span (fun c => c != '.') with
  | (_, []) => ""
  | (ext, _ :: before) => if before.isEmpty then "" else String.mk ('.' :: ext.reverse)

/-- Model of Node `path.basename(p, ext)`: the last component, with `ext`
stripped when it is a proper suffix. -/
def pathBasename (p ext : String) : String :=
  let b := lastComponent p
  if ext ≠ "" ∧ b ≠ ext ∧ endsWithStr b ext = true then
    String.mk (b.toList.take (b.toList.length - ext.toList.length))
  else b

/-- Model of Node `path.dirname`. -/
def pathDirname (p : String) : String :=
  match (splitOnChar '/' p).dropLast with
  | [] => "."
  | [""] => "/"
  | parts => strIntercalate "/" parts

/-- Model of Node `path.join` for two components. -/
def pathJoin (a b : String) : String :=
  if a = "" then (if b = "" then "." else b)
  else if b = "" ∨ b = "." then a
  else a ++ "/" ++ b

/-- Segment-level core of `path.relative`: strip the common leading segments,
then climb with `..` for what remains of the origin. -/
def relSegments : List String → List String → List String
  | f :: fr, t :: tr =>
    if f = t then relSegments fr tr
    else ((f :: fr).map fun _ => "..") ++ (t :: tr)
  | [], ts => ts
  | f :: fr, [] => (f :: fr).map fun _ => ".."

/-- Model of Node `path.relative` for already-resolved posix paths. -/
def pathRelative (fromP toP : String) : String :=
  if fromP = toP then ""
  else
    strIntercalate "/"
      (relSegments ((splitOnChar '/' fromP).filter (· ≠ ""))
        ((splitOnChar '/' toP).filter (· ≠ "")))

/-- Model of the `string-argv` package on unquoted input: split on
whitespace, dropping empty tokens (quoting is not exercised by any claim). -/
def stringArgv (s : String) : List String :=
  ((splitWhenChar isWhitespaceChar s.toList).map String.mk).filter (· ≠ "")

/-! ### Data model (`src/amatl.ts` interfaces) -/

/-- `AmatlOptions` of `src/amatl.ts`.  The optional TypeScript fields are
`Option String`; `main.ts` turns the empty input into `undefined`, and the
processing code tests plain JS truthiness, modelled by `optTruthy`. -/
structure AmatlOptions where
  patterns : String
  ignore : String
  outputDir : String
  format : String
  layout : Option String := none
  vars : Option String := none
  version : String
  config : Option String := none
  additionalArgs : Option String := none
deriving DecidableEq, Repr

/-- `ProcessResult` of `src/amatl.ts`. -/
structure ProcessResult where
  filesProcessed : Nat
  outputFiles : List String
deriving DecidableEq, Repr

/-- JS truthiness of an optional string field (`undefined` and `""` are falsy). -/
def optTruthy (o : Option String) : Bool :=
  o.getD "" ≠ ""

deriving instance DecidableEq for Except

/-! ### `processMarkdownFile` (src/amatl.ts lines 201-268) -/

/-- The format list computed at lines 218-221:
`options.format.toLowerCase().split(',').map(f => f.trim())`. -/
def amatlFormats (options : AmatlOptions) : List String :=
  (splitOnChar ',' (strToLower options.format)).map strTrim

/-- The extension chosen at line 226: `markdown` maps to `md`, every other
format name is used verbatim. -/
def extFor (format : String) : String :=
  if format = "markdown" then "md" else format

/-- The output subdirectory computed at lines 210-212:
`path.join(options.outputDir, path.dirname(path.relative(process.cwd(), file)))`.
`cwd` stands for `process.cwd()`. -/
def outputSubDirFor (cwd : String) (options : AmatlOptions) (file : String) : String :=
  pathJoin options.outputDir (pathDirname (pathRelative cwd file))

/-- The output file path computed at lines 224-227 for one format. -/
def outputFileFor (cwd : String) (options : AmatlOptions) (file format : String) : String :=
  pathJoin (outputSubDirFor cwd options file)
    (pathBasename file (pathExtname file) ++ "." ++ extFor format)

/-- The argument list built at lines 228-252 for one invocation of the
amatl executable. -/
def buildArgs (options : AmatlOptions) (format outputFile file : String) : List String :=
  ["render"]
    ++ (if optTruthy options.config = true then ["-c", options.config.getD ""] else [])
    ++ [format, "-o", outputFile]
    ++ (if (format = "html" ∨ format = "pdf") ∧ optTruthy options.layout = true then
          ["--html-layout", options.layout.getD ""] else [])
    ++ (if optTruthy options.vars = true then ["--vars", options.vars.getD ""] else [])
    ++ (if optTruthy options.additionalArgs = true then
          stringArgv (options.additionalArgs.getD "") else [])
    ++ [file]

/-- Observable behaviour of one `processMarkdownFile` job: the `exec` calls
performed (in order), the `outputFiles` accumulator at termination, and the
returned/raised outcome.  On failure the TypeScript function rethrows the
exec error (modelled as the failing argument list); the accumulated
`outputFiles` local is then discarded from the caller's point of view but is
recorded here as part of the trace. -/
structure FileJobTrace where
  invocations : List (List String)
  outputFiles : List String
  result : Except (List String) ProcessResult
deriving DecidableEq, Repr

/-- The `for (const format of formats)` loop at lines 223-262.
`execOk amatlPath args` is the oracle for `exec.exec(amatlPath, args)`
succeeding (exit code 0).  A failing invocation records the error and stops:
no later format is attempted. -/
def renderFormats (execOk : String → List String → Bool)
    (cwd amatlPath file : String) (options : AmatlOptions) :
    List String → List (List String) → List String → FileJobTrace
  | [], invs, outs => ⟨invs, outs, .ok ⟨1, outs⟩⟩
  | format :: rest, invs, outs =>
    let outputFile := outputFileFor cwd options file format
    let args := buildArgs options format outputFile file
    if execOk amatlPath args then
      renderFormats execOk cwd amatlPath file options rest (invs ++ [args]) (outs ++ [outputFile])
    else ⟨invs ++ [args], outs, .error args⟩

/-- `processMarkdownFile` (lines 201-268); directory creation (`io.mkdirP`)
is an external effect with no bearing on the claims and is not recorded. -/
def processMarkdownFile (execOk : String → List String → Bool)
    (cwd amatlPath file : String) (options : AmatlOptions) : FileJobTrace :=
  renderFormats execOk cwd amatlPath file options (amatlFormats options) [] []

/-! ### `processMarkdownFiles` (src/amatl.ts lines 158-199) -/

/-- The `Except`-valued view of one file job, as awaited by the dispatcher. -/
def fileJob (execOk : String → List String → Bool) (cwd amatlPath : String)
    (options : AmatlOptions) (file : String) : Except (List String) ProcessResult :=
  (processMarkdownFile execOk cwd amatlPath file options).result

/-- Model of `await Promise.all(batch)`: all job results in array order, or
the error of a failing job. -/
def awaitAll (job : String → Except (List String) ProcessResult) :
    List String → Except (List String) (List ProcessResult)
  | [] => .ok []
  | f :: rest =>
    match job f with
    | .error e => .error e
    | .ok r =>
      match awaitAll job rest with
      | .error e => .error e
      | .ok rs => .ok (r :: rs)

/-- The merge loop at lines 179-182 / 189-192: fold the window's results
into the running accumulator, in array order. -/
def mergeResults (acc : ProcessResult) : List ProcessResult → ProcessResult
  | [] => acc
  | r :: rest =>
    mergeResults ⟨acc.filesProcessed + r.filesProcessed, acc.outputFiles ++ r.outputFiles⟩ rest

/-- The dispatcher loop at lines 173-193, verbatim: while the window has
room the file's job is started (pushed); otherwise the whole window is
awaited and merged and the window is cleared — and, as in the source, the
current file is NOT pushed afterwards.  After the loop a non-empty window
is awaited and merged once more. -/
def processGo (job : String → Except (List String) ProcessResult) (batchSize : Nat) :
    List String → List String → ProcessResult → Except (List String) ProcessResult
  | [], batch, acc =>
    if 0 < batch.length then
      match awaitAll job batch with
      | .error e => .error e
      | .ok results => .ok (mergeResults acc results)
    else .ok acc
  | file :: rest, batch, acc =>
    if batch.length < batchSize then
      processGo job batchSize rest (batch ++ [file]) acc
    else
      match awaitAll job batch with
      | .error e => .error e
      | .ok results => processGo job batchSize rest [] (mergeResults acc results)

/-- The window bound of lines 170-171: `os.cpus().length - 1`, floored at 1.
`cpus` stands for `os.cpus().length`. -/
def batchSizeOf (cpus : Nat) : Nat :=
  if cpus - 1 < 1 then 1 else cpus - 1

/-- `processMarkdownFiles` (lines 158-199), with the runtime CPU count and
the exec oracle as parameters. -/
def processMarkdownFiles (execOk : String → List String → Bool) (cwd : String)
    (cpus : Nat) (amatlPath : String) (files : List String) (options : AmatlOptions) :
    Except (List String) ProcessResult :=
  processGo (fileJob execOk cwd amatlPath options) (batchSizeOf cpus) files [] ⟨0, []⟩

/-- Specification-side decomposition of the dispatcher's behaviour: the
successive windows (batches) that `processGo` jointly awaits, in admission
order.  It mirrors the control flow of lines 173-193 exactly, including the
dropping of the file that arrives when the window is full. -/
def dispatchWindows (batchSize : Nat) : List String → List String → List (List String)
  | [], batch => if 0 < batch.length then [batch] else []
  | file :: rest, batch =>
    if batch.length < batchSize then dispatchWindows batchSize rest (batch ++ [file])
    else batch :: dispatchWindows batchSize rest []

/-- Output paths contributed by one file's job (empty for a failing job). -/
def jobOuts (job : String → Except (List String) ProcessResult) (f : String) : List String :=
  match job f with
  | .ok r => r.outputFiles
  | .error _ => []

/-! ### `findMarkdownFiles` (src/amatl.ts lines 121-153) -/

/-- The ignore list hard-coded into every `glob` call at line 133. -/
def hardIgnore : List String := ["node_modules/**", ".git/**"]

/-- The `for (const pattern of ...)` loop at lines 130-149.
`globF pattern ignoreGlobs nodir` is the oracle for
`glob(pattern, { ignore: ignoreGlobs, nodir })`; each batch of matches is
filtered against the user ignore set (membership of the workspace-relative
path) and appended to the running file list. -/
def findGo (globF : String → List String → Bool → List String)
    (workspace : String) (ignoredFiles : List String) :
    List String → List String → List String
  | [], files => files
  | pattern :: rest, files =>
    let kept := (globF pattern hardIgnore true).filter
      (fun m => !(ignoredFiles.contains (pathRelative workspace m)))
    findGo globF workspace ignoredFiles rest (files ++ kept)

/-- `findMarkdownFiles` (lines 121-153).  `workspace` stands for
`process.env.GITHUB_WORKSPACE`. -/
def findMarkdownFiles (globF : String → List String → Bool → List String)
    (workspace patterns ignore : String) : List String :=
  findGo globF workspace (splitOnChar '\n' ignore) (splitOnChar '\n' patterns) []

/-! ### `validateInputs` (src/amatl.ts lines 273-295) -/

/-- The supported format tokens of line 289. -/
def validFormats : List String := ["html", "pdf", "markdown"]

/-- The format-validation loop at lines 288-294: the first unsupported
token raises. -/
def checkFormats : List String → Except String Unit
  | [] => .ok ()
  | f :: rest =>
    if validFormats.contains f then checkFormats rest
    else .error ("Invalid format: " ++ f ++ ". Supported formats: html, pdf, markdown, both")

/-- `validateInputs` (lines 273-295); `!options.patterns` is JS falsiness of
a plain string, i.e. emptiness. -/
def validateInputs (options : AmatlOptions) : Except String Unit :=
  if options.patterns = "" then .error "Patterns is required"
  else if options.outputDir = "" then .error "Output directory is required"
  else checkFormats (amatlFormats options)

/-! ### Installer (src/amatl.ts lines 30-116) -/

/-- The `switch (platform)` at lines 47-59. -/
def resolveOsName (platform : String) : Except String String :=
  if platform = "linux" then .ok "linux"
  else if platform = "darwin" then .ok "darwin"
  else if platform = "win32" then .ok "windows"
  else .error ("Unsupported platform: " ++ platform)

/-- The `switch (arch)` at lines 61-70. -/
def resolveArchName (arch : String) : Except String String :=
  if arch = "x64" then .ok "amd64"
  else if arch = "arm64" then .ok "arm64"
  else .error ("Unsupported architecture: " ++ arch)

/-- `getLatestAmatlVersion` (lines 105-116).  `fetchResult` is the oracle
for the `fetch` of the latest-release endpoint together with the parsing of
its JSON body: `.ok tag` is the `tag_name` read from a successful query,
`.error` any raised exception.  The catch branch swallows the error and
returns the hard-coded fallback. -/
def getLatestAmatlVersion (fetchResult : Except String String) : String :=
  match fetchResult with
  | .ok tag => tag
  | .error _ => "v0.25.1"

/-- The download URL assembled at line 79 (`replace('v', '')` removes only
the first `v`). -/
def downloadUrlFor (actualVersion osName archName : String) : String :=
  "https://github.com/Bornholm/amatl/releases/download/" ++ actualVersion
    ++ "/amatl_" ++ String.mk (replaceFirstChar 'v' actualVersion.toList)
    ++ "_" ++ osName ++ "_" ++ archName ++ ".tar.gz"

/-- What the cache-miss path of `installAmatl` resolves before handing off
to the external download/extract/cache effects. -/
structure InstallPlan where
  osName : String
  archName : String
  actualVersion : String
  downloadUrl : String
deriving DecidableEq, Repr

/-- The cache-miss resolution of `installAmatl` (lines 40-80): the
platform/architecture switches, the `latest` resolution, and the download
URL.  The subsequent `tc.downloadTool`/`tc.extractTar`/`tc.cacheDir`/
`chmod` steps are external effects not modelled; on a cache hit (line 35)
none of this runs. -/
def installAmatl (platform arch version : String)
    (fetchResult : Except String String) : Except String InstallPlan :=
  match resolveOsName platform with
  | .error e => .error e
  | .ok osName =>
    match resolveArchName arch with
    | .error e => .error e
    | .ok archName =>
      let actualVersion := if version = "latest" then getLatestAmatlVersion fetchResult else version
      .ok ⟨osName, archName, actualVersion, downloadUrlFor actualVersion osName archName⟩

/-! ### `run` (src/main.ts lines 15-81) -/

/-- Minimal model of `JSON.stringify` on an array of strings. -/
def jsonEscape (s : String) : String :=
  String.join (s.toList.map fun c =>
    if c == '"' then "\\\"" else if c == '\\' then "\\\\" else String.mk [c])

/-- `JSON.stringify(outputFiles)`. -/
def jsonStringifyStrings (xs : List String) : String :=
  "[" ++ strIntercalate "," (xs.map fun s => "\"" ++ jsonEscape s ++ "\"") ++ "]"

/-- Observable outcome of `run`: the `core.setOutput` pairs emitted in
order, the `core.setFailed` message if any, and whether
`processMarkdownFiles` was invoked. -/
structure RunTrace where
  outputs : List (String × String)
  failedMessage : Option String
  processCalled : Bool
deriving DecidableEq, Repr

/-- `run` (src/main.ts lines 15-81).  `installResult` and `findResult` are
oracles for `installAmatl` and `findMarkdownFiles` (both perform external
I/O); the `catch` block turns any raised error into a `setFailed` call. -/
def run (execOk : String → List String → Bool) (cwd : String) (cpus : Nat)
    (options : AmatlOptions) (installResult : Except String String)
    (findResult : Except String (List String)) : RunTrace :=
  match validateInputs options with
  | .error e => ⟨[], some e, false⟩
  | .ok _ =>
    match installResult with
    | .error e => ⟨[], some e, false⟩
    | .ok amatlPath =>
      match findResult with
      | .error e => ⟨[], some e, false⟩
      | .ok markdownFiles =>
        if markdownFiles.length = 0 then
          ⟨[("files-processed", "0"), ("output-files", "[]")], none, false⟩
        else
          match processMarkdownFiles execOk cwd cpus amatlPath markdownFiles options with
          | .error args =>
            ⟨[], some ("amatl invocation failed: " ++ strIntercalate " " args), true⟩
          | .ok result =>
            ⟨[("files-processed", toString result.filesProcessed),
              ("output-files", jsonStringifyStrings result.outputFiles)], none, true⟩

/-! ### Glob-ignore semantics and concrete instances used by the theorems -/

/-- Whether a glob ignore pattern of the shape `dir/**` (or, otherwise, a
literal path) matches a path — the fragment of glob semantics that the two
hard-coded ignore patterns of line 133 exercise. -/
def matchesIgnore (pat m : String) : Bool :=
  if pat.toList.reverse.take 3 = ['*', '*', '/'] then
    m == String.mk (pat.toList.take (pat.toList.length - 3))
      || startsWithStr m (String.mk (pat.toList.take (pat.toList.length - 3)) ++ "/")
  else m == pat

/-- The contract of the external `glob` library that the discovery code
relies on: no returned match is matched by any pattern of the `ignore`
option it was called with. -/
def GlobRespectsIgnore (globF : String → List String → Bool → List String) : Prop :=
  ∀ pattern ignoreGlobs nodir m, m ∈ globF pattern ignoreGlobs nodir →
    ∀ g ∈ ignoreGlobs, matchesIgnore g m = false

/-- An exec oracle under which every amatl invocation succeeds. -/
def execTrue : String → List String → Bool := fun _ _ => true

/-- An exec oracle that fails exactly the invocations whose argument list
carries the positional format `html`. -/
def execFailHtml : String → List String → Bool := fun _ args => !(args.contains "html")

/-- A minimal single-format option set. -/
def simpleOpts : AmatlOptions :=
  { patterns := "*.md", ignore := "", outputDir := "out", format := "html",
    version := "latest" }

/-- A three-format option set whose middle format is `html`. -/
def failOpts : AmatlOptions :=
  { patterns := "*.md", ignore := "", outputDir := "out",
    format := "markdown,html,pdf", version := "latest" }

/-- Options whose free-form additional arguments smuggle a `--html-layout`
flag into the invocation while the requested format is `markdown`. -/
def injectOpts : AmatlOptions :=
  { patterns := "*.md", ignore := "", outputDir := "out", format := "markdown",
    layout := some "amatl://document.html", version := "latest",
    additionalArgs := some "--html-layout amatl://document.html" }

/-- Options with a configured layout and format `html`. -/
def layoutOpts : AmatlOptions :=
  { patterns := "*.md", ignore := "", outputDir := "out", format := "html",
    layout := some "amatl://document.html", version := "latest" }

/-- A concrete glob oracle that returns one match for one pattern and
honours whatever ignore list it is handed. -/
def globHonest : String → List String → Bool → List String :=
  fun pattern ign _ =>
    (if pattern = "docs/*.md" then ["docs/a.md"] else []).filter
      fun m => ign.all fun g => !(matchesIgnore g m)

/-! ## Theorems -/

/-- C1: the claim states that when the window is full it is drained and the
current file's job is then started into the emptied window, so that every
file's job runs and `filesProcessed = N`.  The dispatcher loop
(src/amatl.ts lines 173-185) instead falls through its `else` branch
without starting the current file's job: with a window bound of 1 (two
CPUs) and two files, only the first file is processed and the returned
`filesProcessed` is 1, not 2, with a single joint wait instead of
⌈2/1⌉ = 2.  This theorem evaluates the embedded code at that failing
input. -/
theorem C1_full_window_drops_current_file :
    batchSizeOf 2 = 1
      ∧ processMarkdownFiles execTrue "" 2 "amatl" ["a.md", "b.md"] simpleOpts
          = .ok ⟨1, ["out/a.html"]⟩
      ∧ dispatchWindows (batchSizeOf 2) ["a.md", "b.md"] [] = [["a.md"]] := by
  decide

/-- C5: on the cache-miss path, `installAmatl` maps platform `linux`,
`darwin`, `win32` to os names `linux`, `darwin`, `windows` and architecture
`x64`, `arm64` to `amd64`, `arm64`, and raises an unsupported-platform
(resp. unsupported-architecture) error, with no fallback value, on every
other platform (resp. architecture) string. -/
theorem C5_platform_arch_mapping :
    resolveOsName "linux" = .ok "linux"
      ∧ resolveOsName "darwin" = .ok "darwin"
      ∧ resolveOsName "win32" = .ok "windows"
      ∧ resolveArchName "x64" = .ok "amd64"
      ∧ resolveArchName "arm64" = .ok "arm64"
      ∧ (∀ platform, platform ≠ "linux" → platform ≠ "darwin" → platform ≠ "win32" →
          resolveOsName platform = .error ("Unsupported platform: " ++ platform)
            ∧ installAmatl platform "x64" "v1.0.0" (.ok "v1.0.0")
                = .error ("Unsupported platform: " ++ platform))
      ∧ (∀ arch, arch ≠ "x64" → arch ≠ "arm64" →
          resolveArchName arch = .error ("Unsupported architecture: " ++ arch)
            ∧ installAmatl "linux" arch "v1.0.0" (.ok "v1.0.0")
                = .error ("Unsupported architecture: " ++ arch)) := by
  refine ⟨rfl, rfl, rfl, rfl, rfl, ?_, ?_⟩
  · intro p h1 h2 h3
    have hos : resolveOsName p = .error ("Unsupported platform: " ++ p) := by
      simp [resolveOsName, h1, h2, h3]
    exact ⟨hos, by simp [installAmatl, hos]⟩
  · intro a h1 h2
    have harch : resolveArchName a = .error ("Unsupported architecture: " ++ a) := by
      simp [resolveArchName, h1, h2]
    exact ⟨harch, by simp [installAmatl, resolveOsName, harch]⟩

/-- Witness for C5 at concrete unsupported platform and architecture strings. -/
theorem C5_platform_arch_mapping_witness :
    (resolveOsName "freebsd" = .error ("Unsupported platform: " ++ "freebsd")
        ∧ installAmatl "freebsd" "x64" "v1.0.0" (.ok "v1.0.0")
            = .error ("Unsupported platform: " ++ "freebsd"))
      ∧ (resolveArchName "ia32" = .error ("Unsupported architecture: " ++ "ia32")
          ∧ installAmatl "linux" "ia32" "v1.0.0" (.ok "v1.0.0")
              = .error ("Unsupported architecture: " ++ "ia32")) :=
  ⟨C5_platform_arch_mapping.2.2.2.2.2.1 "freebsd" (by decide) (by decide) (by decide),
   C5_platform_arch_mapping.2.2.2.2.2.2 "ia32" (by decide) (by decide)⟩

/-- C6: with version selector `latest` and a failing metadata query,
version resolution returns the hard-coded fallback `v0.25.1` and the
installer resolution proceeds without error for any raised message `e`. -/
theorem C6_latest_fallback (e : String) :
    getLatestAmatlVersion (.error e) = "v0.25.1"
      ∧ installAmatl "linux" "x64" "latest" (.error e)
          = .ok ⟨"linux", "amd64", "v0.25.1",
              "https://github.com/Bornholm/amatl/releases/download/v0.25.1/amatl_0.25.1_linux_amd64.tar.gz"⟩ :=
  ⟨rfl, rfl⟩

/-- Witness for C6 at a concrete fetch error. -/
theorem C6_latest_fallback_witness :
    getLatestAmatlVersion (.error "fetch failed") = "v0.25.1"
      ∧ installAmatl "linux" "x64" "latest" (.error "fetch failed")
          = .ok ⟨"linux", "amd64", "v0.25.1",
              "https://github.com/Bornholm/amatl/releases/download/v0.25.1/amatl_0.25.1_linux_amd64.tar.gz"⟩ :=
  C6_latest_fallback "fetch failed"

/-- C7: when validation passes, installation succeeds and file discovery
returns the empty list, `run` completes without reporting a failure,
emits the outputs `files-processed = "0"` and `output-files = "[]"`, and
never invokes `processMarkdownFiles`. -/
theorem C7_zero_files_no_op (execOk : String → List String → Bool) (cwd : String)
    (cpus : Nat) (options : AmatlOptions) (amatlPath : String)
    (hvalid : validateInputs options = .ok ()) :
    run execOk cwd cpus options (.ok amatlPath) (.ok []) =
      ⟨[("files-processed", "0"), ("output-files", "[]")], none, false⟩ := by
  unfold run
  rw [hvalid]
  rfl

/-- Witness for C7 at a concrete valid option set. -/
theorem C7_zero_files_no_op_witness :
    run execTrue "" 4 simpleOpts (.ok "amatl") (.ok []) =
      ⟨[("files-processed", "0"), ("output-files", "[]")], none, false⟩ :=
  C7_zero_files_no_op execTrue "" 4 simpleOpts "amatl" (by decide)

/-- C2: for a job whose ordered format list is `[f1, f2, f3]`, if the
invocation for `f1` succeeds and the one for `f2` fails, then exactly two
invocations are performed (f3's is never built or run), the job's
accumulated output list holds exactly the output path produced for `f1`,
and the job terminates by rethrowing the exec error. -/
theorem C2_failure_aborts_remaining_formats (execOk : String → List String → Bool)
    (cwd amatlPath file : String) (options : AmatlOptions) (f1 f2 f3 : String)
    (hformats : amatlFormats options = [f1, f2, f3])
    (h1 : execOk amatlPath (buildArgs options f1 (outputFileFor cwd options file f1) file) = true)
    (h2 : execOk amatlPath (buildArgs options f2 (outputFileFor cwd options file f2) file) = false) :
    (processMarkdownFile execOk cwd amatlPath file options).invocations
        = [buildArgs options f1 (outputFileFor cwd options file f1) file,
           buildArgs options f2 (outputFileFor cwd options file f2) file]
      ∧ (processMarkdownFile execOk cwd amatlPath file options).outputFiles
          = [outputFileFor cwd options file f1]
      ∧ (processMarkdownFile execOk cwd amatlPath file options).result
          = .error (buildArgs options f2 (outputFileFor cwd options file f2) file) := by
  unfold processMarkdownFile
  rw [hformats]
  simp [renderFormats, h1, h2]

/-- Witness for C2: formats `markdown,html,pdf` with an exec oracle that
fails exactly the `html` invocation. -/
theorem C2_failure_aborts_remaining_formats_witness :
    (processMarkdownFile execFailHtml "" "amatl" "a.md" failOpts).invocations
        = [buildArgs failOpts "markdown" (outputFileFor "" failOpts "a.md" "markdown") "a.md",
           buildArgs failOpts "html" (outputFileFor "" failOpts "a.md" "html") "a.md"]
      ∧ (processMarkdownFile execFailHtml "" "amatl" "a.md" failOpts).outputFiles
          = [outputFileFor "" failOpts "a.md" "markdown"]
      ∧ (processMarkdownFile execFailHtml "" "amatl" "a.md" failOpts).result
          = .error (buildArgs failOpts "html" (outputFileFor "" failOpts "a.md" "html") "a.md") :=
  C2_failure_aborts_remaining_formats execFailHtml "" "amatl" "a.md" failOpts
    "markdown" "html" "pdf" (by decide) (by decide) (by decide)

/-- Joining a directory with a file name of the shape `stem0.ext` yields a
path that still ends in `.ext`: the final component survives `pathJoin`. -/
lemma pathJoin_ext_suffix (a stem0 ext : String) (hext : 0 < ext.length) :
    ∃ stem, pathJoin a (stem0 ++ "." ++ ext) = stem ++ "." ++ ext := by
  have hdot : ("." : String).length = 1 := by decide
  have hlenb : (stem0 ++ "." ++ ext).length = stem0.length + 1 + ext.length := by
    simp [String.length_append, hdot]
  have hb1 : stem0 ++ "." ++ ext ≠ "" := by
    intro hc
    have hl := congrArg String.length hc
    rw [hlenb] at hl
    have h0 : ("" : String).length = 0 := by decide
    omega
  have hb2 : stem0 ++ "." ++ ext ≠ "." := by
    intro hc
    have hl := congrArg String.length hc
    rw [hlenb] at hl
    have h0 : ("." : String).length = 1 := by decide
    omega
  unfold pathJoin
  by_cases ha : a = ""
  · rw [if_pos ha, if_neg hb1]
    exact ⟨stem0, rfl⟩
  · rw [if_neg ha, if_neg (by
      intro hor
      rcases hor with hc | hc
      · exact hb1 hc
      · exact hb2 hc)]
    exact ⟨a ++ "/" ++ stem0, by simp [String.append_assoc]⟩

/-- C3: for every requested supported format, the output path computed by
`processMarkdownFile` is the output directory joined with the mirrored
relative subdirectory of the input file and the base filename, and it ends
in extension `.md` when the format is `markdown` and in an extension equal
to the format name for every other supported format. -/
theorem C3_output_path_shape (cwd : String) (options : AmatlOptions) (file format : String)
    (hfmt : format ∈ validFormats) :
    outputFileFor cwd options file format
        = pathJoin (pathJoin options.outputDir (pathDirname (pathRelative cwd file)))
            (pathBasename file (pathExtname file) ++ "." ++ extFor format)
      ∧ (format = "markdown" → ∃ stem, outputFileFor cwd options file format = stem ++ "." ++ "md")
      ∧ (format ≠ "markdown" → ∃ stem, outputFileFor cwd options file format = stem ++ "." ++ format) := by
  refine ⟨rfl, ?_, ?_⟩
  · intro hmd
    have hext : extFor format = "md" := by rw [extFor, if_pos hmd]
    unfold outputFileFor outputSubDirFor
    rw [hext]
    exact pathJoin_ext_suffix _ _ "md" (by decide)
  · intro hnot
    have hext : extFor format = format := by rw [extFor, if_neg hnot]
    unfold outputFileFor outputSubDirFor
    rw [hext]
    have hlen : 0 < format.length := by
      have : format = "html" ∨ format = "pdf" ∨ format = "markdown" := by
        simpa [validFormats] using hfmt
      rcases this with rfl | rfl | rfl <;> decide
    exact pathJoin_ext_suffix _ _ format hlen

/-- Witness for C3 at a nested input file and each supported format. -/
theorem C3_output_path_shape_witness :
    (outputFileFor "" simpleOpts "docs/a.md" "markdown"
        = pathJoin (pathJoin simpleOpts.outputDir (pathDirname (pathRelative "" "docs/a.md")))
            (pathBasename "docs/a.md" (pathExtname "docs/a.md") ++ "." ++ extFor "markdown")
      ∧ ("markdown" = "markdown" →
          ∃ stem, outputFileFor "" simpleOpts "docs/a.md" "markdown" = stem ++ "." ++ "md")
      ∧ ("markdown" ≠ "markdown" →
          ∃ stem, outputFileFor "" simpleOpts "docs/a.md" "markdown" = stem ++ "." ++ "markdown"))
    ∧ (outputFileFor "" simpleOpts "docs/a.md" "pdf"
        = pathJoin (pathJoin simpleOpts.outputDir (pathDirname (pathRelative "" "docs/a.md")))
            (pathBasename "docs/a.md" (pathExtname "docs/a.md") ++ "." ++ extFor "pdf")
      ∧ ("pdf" = "markdown" →
          ∃ stem, outputFileFor "" simpleOpts "docs/a.md" "pdf" = stem ++ "." ++ "md")
      ∧ ("pdf" ≠ "markdown" →
          ∃ stem, outputFileFor "" simpleOpts "docs/a.md" "pdf" = stem ++ "." ++ "pdf")) :=
  ⟨C3_output_path_shape "" simpleOpts "docs/a.md" "markdown" (by decide),
   C3_output_path_shape "" simpleOpts "docs/a.md" "pdf" (by decide)⟩

/-- C4-counterexample: with format `markdown`, a configured layout, and
free-form additional arguments `--html-layout amatl://document.html`, the
argument list built by `processMarkdownFile` does contain the
`--html-layout` flag (followed by the configured layout value) although
the format is neither `html` nor `pdf` — refuting the claimed
"absent for markdown even when a layout is configured" direction of the
if-and-only-if. -/
theorem C4_counterexample :
    optTruthy injectOpts.layout = true
      ∧ (processMarkdownFile execTrue "" "amatl" "a.md" injectOpts).invocations
          = [["render", "markdown", "-o", "out/a.md",
              "--html-layout", "amatl://document.html", "a.md"]]
      ∧ "--html-layout" ∈ buildArgs injectOpts "markdown"
          (outputFileFor "" injectOpts "a.md" "markdown") "a.md"
      ∧ ¬(("markdown" = "html" ∨ "markdown" = "pdf") ∧ optTruthy injectOpts.layout = true) := by
  decide

/-- C4 (amended): provided the literal token `--html-layout` is not itself
injected through the config value, the vars value, the parsed additional
arguments, the output path or the input file path, the `--html-layout`
flag is present in the argument list built by `processMarkdownFile` if and
only if the format is `html` or `pdf` and a (truthy) layout option was
supplied; in particular it is absent for format `markdown` even when a
layout is configured. -/
theorem C4_html_layout_iff (options : AmatlOptions) (format outputFile file : String)
    (hfmt : format ∈ validFormats)
    (hconf : "--html-layout" ≠ options.config.getD "")
    (hvars : "--html-layout" ≠ options.vars.getD "")
    (hextra : "--html-layout" ∉ stringArgv (options.additionalArgs.getD ""))
    (hout : "--html-layout" ≠ outputFile)
    (hfile : "--html-layout" ≠ file) :
    ("--html-layout" ∈ buildArgs options format outputFile file)
      ↔ ((format = "html" ∨ format = "pdf") ∧ optTruthy options.layout = true) := by
  have hfmt' : "--html-layout" ≠ format := by
    have : format = "html" ∨ format = "pdf" ∨ format = "markdown" := by
      simpa [validFormats] using hfmt
    rcases this with rfl | rfl | rfl <;> decide
  by_cases hcond : (format = "html" ∨ format = "pdf") ∧ optTruthy options.layout = true
  · simp only [buildArgs, if_pos hcond]
    simp [hcond]
  · simp only [buildArgs, if_neg hcond]
    by_cases hc : optTruthy options.config = true <;>
      by_cases hv : optTruthy options.vars = true <;>
        by_cases he : optTruthy options.additionalArgs = true <;>
          simp [hc, hv, he, hconf, hvars, hextra, hout, hfile, hfmt', hcond]

/-- Witness for C4 (amended): with a configured layout and format `html`
and no injection, the flag is present and the iff holds. -/
theorem C4_html_layout_iff_witness :
    (("--html-layout" ∈ buildArgs layoutOpts "html" "out/a.html" "a.md")
      ↔ (("html" = "html" ∨ "html" = "pdf") ∧ optTruthy layoutOpts.layout = true)) :=
  C4_html_layout_iff layoutOpts "html" "out/a.html" "a.md"
    (by decide) (by decide) (by decide) (by decide) (by decide) (by decide)

/-- The discovery loop appends each pattern's filtered matches in pattern
order to the running list. -/
lemma findGo_eq (globF : String → List String → Bool → List String)
    (ws : String) (ign : List String) (pats : List String) (files : List String) :
    findGo globF ws ign pats files
      = files ++ (pats.map fun pattern =>
          (globF pattern hardIgnore true).filter
            fun m => !(ign.contains (pathRelative ws m))).flatten := by
  induction pats generalizing files with
  | nil => simp [findGo]
  | cons p ps ih => simp [findGo, ih]

/-- Occurrence count in a filtered list. -/
lemma count_filter_eq (l : List String) (p : String → Bool) (x : String) :
    (l.filter p).count x = if p x = true then l.count x else 0 := by
  by_cases hp : p x = true
  · rw [if_pos hp, List.count_filter hp]
  · rw [if_neg hp, List.count_eq_zero]
    intro hmem
    exact hp (List.mem_filter.mp hmem).2

/-- C9: `findMarkdownFiles` returns the concatenation, in pattern order, of
each pattern's glob matches filtered against the user ignore set (matching
on the workspace-relative path); matches are not deduplicated across
patterns — every occurrence of a non-ignored path `x` in any pattern's
match list contributes one occurrence to the result, and an ignored path
never occurs. -/
theorem C9_pattern_concat (globF : String → List String → Bool → List String)
    (workspace patterns ignore : String) :
    findMarkdownFiles globF workspace patterns ignore
        = ((splitOnChar '\n' patterns).map fun pattern =>
            (globF pattern hardIgnore true).filter
              fun m => !((splitOnChar '\n' ignore).contains (pathRelative workspace m))).flatten
      ∧ ∀ x, (findMarkdownFiles globF workspace patterns ignore).count x
          = if (splitOnChar '\n' ignore).contains (pathRelative workspace x) then 0
            else ((splitOnChar '\n' patterns).map
                fun pattern => (globF pattern hardIgnore true).count x).sum := by
  have hstruct :
      findMarkdownFiles globF workspace patterns ignore
        = ((splitOnChar '\n' patterns).map fun pattern =>
            (globF pattern hardIgnore true).filter
              fun m => !((splitOnChar '\n' ignore).contains (pathRelative workspace m))).flatten := by
    simpa [findMarkdownFiles]
      using findGo_eq globF workspace (splitOnChar '\n' ignore) (splitOnChar '\n' patterns) []
  refine ⟨hstruct, fun x => ?_⟩
  rw [hstruct, List.count_flatten, List.map_map]
  by_cases hx : (splitOnChar '\n' ignore).contains (pathRelative workspace x)
  · rw [if_pos hx]
    apply List.sum_eq_zero
    intro n hn
    obtain ⟨pat, _, rfl⟩ := List.mem_map.mp hn
    simp only [Function.comp_apply]
    rw [count_filter_eq, if_neg (by rw [hx]; decide)]
  · rw [if_neg hx]
    rw [Bool.not_eq_true] at hx
    congr 1
    apply List.map_congr_left
    intro pat _
    simp only [Function.comp_apply]
    rw [count_filter_eq, if_pos (by rw [hx]; decide)]

/-- Witness for C9 at a concrete oracle: the same pattern listed twice
duplicates its match, and an ignored path is dropped. -/
theorem C9_pattern_concat_witness :
    findMarkdownFiles globHonest "" "docs/*.md\ndocs/*.md" ""
        = ((splitOnChar '\n' "docs/*.md\ndocs/*.md").map fun pattern =>
            (globHonest pattern hardIgnore true).filter
              fun m => !((splitOnChar '\n' "").contains (pathRelative "" m))).flatten
      ∧ (findMarkdownFiles globHonest "" "docs/*.md\ndocs/*.md" "").count "docs/a.md" = 2 := by
  refine ⟨(C9_pattern_concat globHonest "" "docs/*.md\ndocs/*.md" "").1, ?_⟩
  rw [(C9_pattern_concat globHonest "" "docs/*.md\ndocs/*.md" "").2 "docs/a.md"]
  decide

/-- If a path starts with `d ++ "/"`, the `d/**` ignore pattern matches it. -/
lemma matchesIgnore_of_under (pat d x : String)
    (hpat : pat.toList.reverse.take 3 = ['*', '*', '/'])
    (hd : String.mk (pat.toList.take (pat.toList.length - 3)) = d)
    (hx : startsWithStr x (d ++ "/") = true) :
    matchesIgnore pat x = true := by
  unfold matchesIgnore
  rw [if_pos hpat, hd, hx]
  simp

/-- C10: as the discovery code hands `glob` the hard-coded ignore list
`["node_modules/**", ".git/**"]` on every call, any glob implementation
that honours its ignore option makes `findMarkdownFiles` return no path
under `node_modules/` or `.git/`, whatever the user's patterns and ignore
list are. -/
theorem C10_hard_ignore_respected (globF : String → List String → Bool → List String)
    (workspace patterns ignore : String) (hresp : GlobRespectsIgnore globF)
    (x : String) (hx : x ∈ findMarkdownFiles globF workspace patterns ignore) :
    startsWithStr x "node_modules/" = false ∧ startsWithStr x ".git/" = false := by
  rw [findMarkdownFiles,
    findGo_eq globF workspace (splitOnChar '\n' ignore) (splitOnChar '\n' patterns) []] at hx
  simp only [List.nil_append, List.mem_flatten, List.mem_map] at hx
  obtain ⟨l, ⟨pat, hpat, rfl⟩, hxl⟩ := hx
  have hxg : x ∈ globF pat hardIgnore true := (List.mem_filter.mp hxl).1
  constructor
  · by_cases hs : startsWithStr x "node_modules/" = true
    · have hmi := hresp pat hardIgnore true x hxg "node_modules/**" (by simp [hardIgnore])
      have hmt : matchesIgnore "node_modules/**" x = true :=
        matchesIgnore_of_under "node_modules/**" "node_modules" x (by decide) (by decide)
          (by rw [show ("node_modules" ++ "/" : String) = "node_modules/" by decide]; exact hs)
      rw [hmt] at hmi
      exact absurd hmi (by decide)
    · exact Bool.eq_false_iff.mpr hs
  · by_cases hs : startsWithStr x ".git/" = true
    · have hmi := hresp pat hardIgnore true x hxg ".git/**" (by simp [hardIgnore])
      have hmt : matchesIgnore ".git/**" x = true :=
        matchesIgnore_of_under ".git/**" ".git" x (by decide) (by decide)
          (by rw [show (".git" ++ "/" : String) = ".git/" by decide]; exact hs)
      rw [hmt] at hmi
      exact absurd hmi (by decide)
    · exact Bool.eq_false_iff.mpr hs

/-- Witness for C10: a concrete honouring glob oracle and a returned match. -/
theorem C10_hard_ignore_respected_witness :
    startsWithStr "docs/a.md" "node_modules/" = false
      ∧ startsWithStr "docs/a.md" ".git/" = false :=
  C10_hard_ignore_respected globHonest "" "docs/*.md" ""
    (by
      intro pattern ignoreGlobs nodir m hm g hg
      simp only [globHonest, List.mem_filter] at hm
      have hall := hm.2
      rw [List.all_eq_true] at hall
      have := hall g hg
      simpa using this)
    "docs/a.md" (by decide)

/-- `Promise.all` delivers the window's results in the window's array
order: a successful joint wait maps each admitted file to its job's
output list, position by position. -/
lemma awaitAll_ok_outputs (job : String → Except (List String) ProcessResult)
    (w : List String) (rs : List ProcessResult) (h : awaitAll job w = .ok rs) :
    rs.map ProcessResult.outputFiles = w.map (jobOuts job) := by
  induction w generalizing rs with
  | nil =>
    simp only [awaitAll, Except.ok.injEq] at h
    subst h
    simp
  | cons f rest ih =>
    rw [awaitAll] at h
    cases hjf : job f with
    | error e => rw [hjf] at h; exact absurd h (by simp)
    | ok r =>
      rw [hjf] at h
      cases hrest : awaitAll job rest with
      | error e => rw [hrest] at h; exact absurd h (by simp)
      | ok rs' =>
        rw [hrest] at h
        simp only [Except.ok.injEq] at h
        subst h
        simp only [List.map_cons]
        rw [ih rs' hrest]
        simp [jobOuts, hjf]

/-- The merge loop concatenates the window's output lists onto the
accumulator, in order, and adds the processed counts. -/
lemma mergeResults_spec (rs : List ProcessResult) (acc : ProcessResult) :
    mergeResults acc rs
      = ⟨acc.filesProcessed + (rs.map ProcessResult.filesProcessed).sum,
         acc.outputFiles ++ (rs.map ProcessResult.outputFiles).flatten⟩ := by
  induction rs generalizing acc with
  | nil => simp [mergeResults]
  | cons r rest ih =>
    rw [mergeResults, ih]
    simp [Nat.add_assoc]

/-- Core invariant of the dispatcher loop: on a successful run, the final
output list is the accumulator followed by the concatenation, window by
window in dispatch order, of the admitted jobs' outputs in admission
order. -/
lemma processGo_ok_outputs (job : String → Except (List String) ProcessResult) (K : Nat)
    (files : List String) :
    ∀ batch acc res, processGo job K files batch acc = .ok res →
      res.outputFiles
        = acc.outputFiles ++ ((dispatchWindows K files batch).map
            fun w => (w.map (jobOuts job)).flatten).flatten := by
  induction files with
  | nil =>
    intro batch acc res h
    rw [processGo] at h
    rw [dispatchWindows]
    by_cases hb : 0 < batch.length
    · rw [if_pos hb] at h
      rw [if_pos hb]
      cases haw : awaitAll job batch with
      | error e => rw [haw] at h; exact absurd h (by simp)
      | ok results =>
        rw [haw] at h
        simp only [Except.ok.injEq] at h
        subst h
        rw [mergeResults_spec]
        simp [awaitAll_ok_outputs job batch results haw]
    · rw [if_neg hb] at h
      rw [if_neg hb]
      simp only [Except.ok.injEq] at h
      subst h
      simp
  | cons f rest ih =>
    intro batch acc res h
    rw [processGo] at h
    rw [dispatchWindows]
    by_cases hlt : batch.length < K
    · rw [if_pos hlt] at h
      rw [if_pos hlt]
      exact ih _ _ _ h
    · rw [if_neg hlt] at h
      rw [if_neg hlt]
      cases haw : awaitAll job batch with
      | error e => rw [haw] at h; exact absurd h (by simp)
      | ok results =>
        rw [haw] at h
        rw [ih [] (mergeResults acc results) res h, mergeResults_spec]
        simp [awaitAll_ok_outputs job batch results haw]

/-- C8: on every successful run of `processMarkdownFiles`, the merged
output list is exactly the window-by-window concatenation of the admitted
jobs' outputs: everything contributed by window N precedes everything of
window N+1, and within a window the entries appear in the jobs' admission
(array) order — the joint `Promise.all` wait merges in array order
independently of the jobs' completion order. -/
theorem C8_window_ordering (execOk : String → List String → Bool) (cwd : String)
    (cpus : Nat) (amatlPath : String) (files : List String) (options : AmatlOptions)
    (res : ProcessResult)
    (h : processMarkdownFiles execOk cwd cpus amatlPath files options = .ok res) :
    res.outputFiles
      = ((dispatchWindows (batchSizeOf cpus) files []).map
          fun w => (w.map (jobOuts (fileJob execOk cwd amatlPath options))).flatten).flatten := by
  have := processGo_ok_outputs (fileJob execOk cwd amatlPath options) (batchSizeOf cpus)
    files [] ⟨0, []⟩ res h
  simpa using this

/-- Witness for C8: three files through a window of size two (so one joint
wait, with the third file dropped by the loop). -/
theorem C8_window_ordering_witness :
    (⟨2, ["out/a.html", "out/b.html"]⟩ : ProcessResult).outputFiles
      = ((dispatchWindows (batchSizeOf 3) ["a.md", "b.md", "c.md"] []).map
          fun w => (w.map (jobOuts (fileJob execTrue "" "amatl" simpleOpts))).flatten).flatten :=
  C8_window_ordering execTrue "" 3 "amatl" ["a.md", "b.md", "c.md"] simpleOpts
    ⟨2, ["out/a.html", "out/b.html"]⟩ (by decide)

end AmatlAction
